import Mathlib

/-
Verification of the dogs_vs_cats training pipeline (preprocessing.py and
train_model.py) through a shallow embedding in Lean 4.

Conventions of the embedding:
- a 2D image is a List (List Int): a list of rows of integer pixel values
  (numpy arrays of exact small values; only comparison with 0 and slicing
  matter to the verified properties);
- Python slicing a[x:y] is modelled by pySlice, including the clamping and
  the negative-index wraparound of Python;
- float constants of the source (0.4, 0.1, the metric values) are modelled
  as exact rationals; the IEEE float values of the source are within 1e-15
  of these rationals and none of the verified comparisons is within that
  distance of a tie, except where noted;
- a function that can raise a Python exception is modelled as returning an
  Option (or an Except with the error message): none/error is the raise;
- numpy loads from disk are abstracted as explicit parameters, and the
  side effects of performing a load are recorded in a returned trace list.
-/

/-- Normalization of a Python slice endpoint: a negative index counts from
the end of the list, and the result is clamped to the interval [0, n]. -/
def pyIdx (n : ℕ) (i : ℤ) : ℕ :=
  (max 0 (min (if i < 0 then i + n else i) (n : ℤ))).toNat

/-- Python slice xs[a:b] (step 1) on a list, with Python's clamping and
negative-index semantics. -/
def pySlice (a b : ℤ) (xs : List α) : List α :=
  (xs.take (pyIdx xs.length b)).drop (pyIdx xs.length a)

/-- Inclusive prefix sums, as numpy's np.cumsum on a 1D array. -/
def cumsum (l : List ℕ) : List ℕ :=
  (l.scanl (· + ·) 0).drop 1

/-- The crop-search of preprocessing.py lines 21-22:
np.argwhere(np.cumsum(xs != 0) == 1)[0][0], the index of the first position
where the running count of nonzero entries reaches 1. Returns none when the
list has no nonzero entry, in which case argwhere is empty and the [0]
lookup raises an IndexError. -/
def firstNonzeroIdx (xs : List ℤ) : Option ℕ :=
  (cumsum (xs.map (fun x => if x ≠ 0 then 1 else 0))).findIdx? (· == 1)

/-- The nonnegative-angle body of remove_black_borders_from_rotation
(preprocessing.py lines 16-27): cropx is searched in the reversed first
row and cropy in the first column (img[:,0] is the head of every row); if
either search fails the IndexError is modelled by none; if the crop
exceeds 40 percent of the corresponding dimension the input is returned
unchanged; otherwise the centred slice
img[cropy:row-cropy, cropx:col-cropx] is returned. An empty image, whose
first row img[0] does not exist, is also an IndexError. -/
def remove_black_borders_core (rotated_img : List (List ℤ)) : Option (List (List ℤ)) :=
  match rotated_img with
  | [] => none
  | first_row :: _ =>
    let row := rotated_img.length
    let col := first_row.length
    let first_col := rotated_img.map (fun r => r.headD 0)
    match firstNonzeroIdx first_row.reverse, firstNonzeroIdx first_col with
    | some cropx, some cropy =>
      if (cropy : ℚ) > 0.4 * row ∨ (cropx : ℚ) > 0.4 * col then some rotated_img
      else some ((pySlice cropy ((row : ℤ) - cropy) rotated_img).map
        (pySlice cropx ((col : ℤ) - cropx)))
    | _, _ => none

/-- preprocessing.py lines 10-27, remove_black_borders_from_rotation.
For a negative angle the source mirrors the image horizontally
(img[:,::-1], List.reverse on every row), recurses with the positive
angle and mirrors the result back; since the recursive call's angle
-angle is positive, the recursion is at most one level deep and the inner
call is exactly the nonnegative-angle body remove_black_borders_core.
The source's recursive unfolding equation is proved below
(remove_black_borders_unfold). -/
def remove_black_borders_from_rotation (rotated_img : List (List ℤ)) (angle : ℤ) :
    Option (List (List ℤ)) :=
  if angle < 0 then
    (remove_black_borders_core (rotated_img.map List.reverse)).map (List.map List.reverse)
  else
    remove_black_borders_core rotated_img

/-- preprocessing.py lines 75-82, crop. All four pixel offsets, the
left/right ones included, are int(rate*rows/100.0): for natural rates this
is the floor of rate*rows/100, hence natural division. The slice
img[crop_up : rows-crop_down, crop_left : cols-crop_right] follows. -/
def crop (img : List (List ℤ)) (crop_rates : ℕ × ℕ × ℕ × ℕ) : List (List ℤ) :=
  let rows := img.length
  let cols := (img.headD []).length
  let crop_up := crop_rates.1 * rows / 100
  let crop_down := crop_rates.2.1 * rows / 100
  let crop_left := crop_rates.2.2.1 * rows / 100
  let crop_right := crop_rates.2.2.2 * rows / 100
  (pySlice crop_up ((rows : ℤ) - crop_down) img).map
    (pySlice crop_left ((cols : ℤ) - crop_right))

/-- preprocessing.py lines 102-111, convert_labels. The target matrix has
first column the labels and second column 1 - labels, so each input label
l becomes the pair (l, 1-l), in order. Labels are exact small numbers
(0/1 floats in the source), modelled as integers. -/
def convert_labels (labels_1D : List ℤ) : List (ℤ × ℤ) :=
  labels_1D.map (fun l => (l, 1 - l))

/-- One pass of the generator of preprocessing.py lines 113-133 over the
dataset (the body of the while-1 loop after the reload). The loop header is
for i in range(trainset.shape[0]/batch_size)[0:-1], i.e. the [0:-1] slice
of range(N//B), which is dropLast of that range. For each yielded i the
batch is built by the inner k-loop from samples trainset[i*B+k] with the
preprocessing function applied, and the targets slice is
targets[i*B:(i+1)*B]. The per-sample channel stripping (index [...,0]) and
the fixed (B,1,100,100) allocation shape are not observable at this level:
a sample is abstracted as one integer. -/
def generator_from_file_pass (trainset : List ℤ) (targets : List ℤ) (batch_size : ℕ)
    (preprocessing_func : ℤ → ℤ) : List (List ℤ × List ℤ) :=
  ((List.range (trainset.length / batch_size)).dropLast).map (fun i =>
    ((List.range batch_size).map
        (fun k => preprocessing_func (trainset.getD (i * batch_size + k) 0)),
     pySlice (i * batch_size) ((i + 1) * batch_size) targets))

/-- Extended metric value: a Python float together with the infinities
-np.Inf and np.Inf used as initial best values in train_model.py
lines 51-54. -/
inductive XFloat where
  | negInf : XFloat
  | val : ℚ → XFloat
  | posInf : XFloat
deriving DecidableEq

/-- Strict order on extended metric values, as Python float comparison. -/
def XFloat.lt : XFloat → XFloat → Bool
  | negInf, negInf => false
  | negInf, _ => true
  | val _, negInf => false
  | val a, val b => a < b
  | val _, posInf => true
  | posInf, _ => false

/-- Comparison mode of ModelCheckpoint_perso (train_model.py line 42). -/
inductive CkptMode where
  | acc : CkptMode
  | loss : CkptMode
deriving DecidableEq

/-- Initial best value set by ModelCheckpoint_perso.__init__
(train_model.py lines 51-54): -np.Inf in acc mode, np.Inf in loss mode. -/
def init_best : CkptMode → XFloat
  | .acc => .negInf
  | .loss => .posInf

/-- Which snapshot file on_epoch_end writes: best_model.cnn or
last_epoch.cnn. -/
inductive SnapKind where
  | best_model : SnapKind
  | last_epoch : SnapKind
deriving DecidableEq

/-- train_model.py lines 75-95, ModelCheckpoint_perso.on_epoch_end. The
condition is current > best in acc mode and current < best in loss mode;
when it holds the best_model snapshot is saved and best is updated to
current, otherwise the last_epoch snapshot is saved and best is kept. -/
def on_epoch_end (mode : CkptMode) (best : XFloat) (current : ℚ) : SnapKind × XFloat :=
  let condition :=
    match mode with
    | .acc => XFloat.lt best (.val current)
    | .loss => XFloat.lt (.val current) best
  if condition then (.best_model, .val current) else (.last_epoch, best)

/-- Folding on_epoch_end over a metric sequence from the initial best value
of the mode: returns the list of snapshot kinds saved at each epoch end, in
order, and the final best value. -/
def run_epochs (mode : CkptMode) (metrics : List ℚ) : List SnapKind × XFloat :=
  metrics.foldl
    (fun st m =>
      let r := on_epoch_end mode st.2 m
      (st.1 ++ [r.1], r.2))
    ([], init_best mode)

/-- The while loop of launch_training (train_model.py lines 208-232),
reduced to its scheduling skeleton: while
learning_rate >= learning_rate_min and count < nb_max_epoch, run one stage,
then multiply the learning rate by 0.1 and increment count. The recursion
is driven by a fuel argument: since every iteration requires
count < nb_max_epoch and increments count, nb_max_epoch - count iterations
always exhaust the loop, so launch_training_stage_count passes exactly that
fuel and the value equals the number of iterations of the source loop. -/
def launch_training_loop (learning_rate_min : ℚ) (nb_max_epoch : ℕ) :
    ℕ → ℚ → ℕ → ℕ
  | 0, _, _ => 0
  | fuel + 1, learning_rate, count =>
    if learning_rate_min ≤ learning_rate ∧ count < nb_max_epoch then
      1 + launch_training_loop learning_rate_min nb_max_epoch fuel
        (learning_rate * 0.1) (count + 1)
    else 0

/-- Number of stages run by the training loop of launch_training, starting
from learning rate lr and stage counter count (the fine_tuning offset of
train_model.py line 208). -/
def launch_training_stage_count (lr lr_min : ℚ) (count nb_max_epoch : ℕ) : ℕ :=
  launch_training_loop lr_min nb_max_epoch (nb_max_epoch - count) lr count

/-- train_model.py lines 130-154, load_dataset_in_memory_and_resize,
with the two dataset loaders abstracted as parameters and disk reads
recorded in a trace (second component): "in-memory" loads via
InMemoryDataset, "fuel" loads via FuelDataset, any other mode raises the
Exception of line 143 before anything is loaded. When tmp_size differs
from final_size every image is resized (the resize_pil loop of lines
145-152), otherwise the data is returned as loaded. -/
def load_dataset_in_memory_and_resize {α β : Type} (data_access : String)
    (inMemoryLoad : Unit → List α × β) (fuelLoad : Unit → List α × β)
    (tmp_size final_size : ℕ × ℕ × ℕ) (resize_pil : α → α) :
    Except String (List α × β) × List String :=
  if data_access = "in-memory" then
    let draw_data := (inMemoryLoad ()).1
    let targets := (inMemoryLoad ()).2
    if tmp_size ≠ final_size then
      (.ok (draw_data.map resize_pil, targets), ["load in-memory"])
    else
      (.ok (draw_data, targets), ["load in-memory"])
  else if data_access = "fuel" then
    let draw_data := (fuelLoad ()).1
    let targets := (fuelLoad ()).2
    if tmp_size ≠ final_size then
      (.ok (draw_data.map resize_pil, targets), ["load fuel"])
    else
      (.ok (draw_data, targets), ["load fuel"])
  else
    (.error ("Data access not available. Must be fuel or in-memory. Here : "
      ++ data_access ++ "."), [])

/-- A numpy image as seen by rotate (preprocessing.py lines 40-46): either
a 2D array or a 3D array with an explicit channel count, with pixel data
indexed by position. -/
inductive NpImage where
  | d2 (rows cols : ℕ) (data : ℕ → ℕ → ℤ) : NpImage
  | d3 (rows cols channels : ℕ) (data : ℕ → ℕ → ℕ → ℤ) : NpImage

/-- preprocessing.py lines 40-46, rotate, with the PIL rotation abstracted
as a parameter acting on 2D pixel data. For a 3D image, pil_img is
assigned only when the channel count is 1 (from the 2D slice img[:,:,0]),
and the result is reshaped back to the original 3D shape; for any other
channel count pil_img is never assigned and line 46 raises an unbound
local variable error, modelled by none. A 2D image is rotated directly. -/
def rotate (pil_rotate : (ℕ → ℕ → ℤ) → ℤ → ℕ → ℕ → ℤ) (img : NpImage) (angle : ℤ) :
    Option NpImage :=
  match img with
  | .d3 rows cols channels data =>
    if channels = 1 then
      some (.d3 rows cols channels
        (fun i j _ => pil_rotate (fun a b => data a b 0) angle i j))
    else none
  | .d2 rows cols data => some (.d2 rows cols (pil_rotate data angle))

/-- The wrapper-plus-core definition satisfies the source's recursive
equation (preprocessing.py lines 12-14): for a negative angle it mirrors,
recurses with the positive angle and mirrors back; otherwise it runs the
nonnegative-angle body. -/
theorem remove_black_borders_unfold (img : List (List ℤ)) (angle : ℤ) :
    remove_black_borders_from_rotation img angle =
      if angle < 0 then
        (remove_black_borders_from_rotation (img.map List.reverse) (-angle)).map
          (List.map List.reverse)
      else remove_black_borders_core img := by
  unfold remove_black_borders_from_rotation
  split
  · rw [if_neg (by omega)]
  · rfl

/-- Scanning addition over an all-zero list keeps the accumulator
constant. -/
theorem scanl_add_allzero (l : List ℕ) (h : ∀ x ∈ l, x = 0) (b : ℕ) :
    l.scanl (· + ·) b = List.replicate (l.length + 1) b := by
  induction l generalizing b with
  | nil => rfl
  | cons a t ih =>
    have ha : a = 0 := h a (List.mem_cons_self a t)
    have ht : ∀ x ∈ t, x = 0 := fun x hx => h x (List.mem_cons_of_mem a hx)
    simp [List.scanl, ha, ih ht b, List.replicate_succ]

/-- The cumulative-sum search of preprocessing.py lines 21-22 raises an
IndexError (none) exactly when the scanned list has no nonzero entry. -/
theorem firstNonzeroIdx_allzero (xs : List ℤ) (h : ∀ x ∈ xs, x = 0) :
    firstNonzeroIdx xs = none := by
  have hmap : xs.map (fun x => if x ≠ 0 then (1 : ℕ) else 0) =
      List.replicate xs.length 0 := by
    rw [← List.map_const xs 0]
    exact List.map_congr_left (fun x hx => by simp [h x hx])
  have hzero : cumsum (xs.map (fun x => if x ≠ 0 then (1 : ℕ) else 0)) =
      List.replicate xs.length 0 := by
    rw [hmap]
    unfold cumsum
    rw [scanl_add_allzero _ (fun x hx => List.eq_of_mem_replicate hx) 0]
    simp [List.drop_replicate]
  unfold firstNonzeroIdx
  rw [hzero]
  induction xs.length with
  | zero => rfl
  | succ n ih => simp [List.replicate_succ, List.findIdx?_cons, ih]

/-- A Python slice with nonnegative endpoints is take-then-drop. -/
theorem pySlice_nonneg {α : Type} (a b : ℤ) (ha : 0 ≤ a) (hb : 0 ≤ b) (xs : List α) :
    pySlice a b xs = (xs.take b.toNat).drop a.toNat := by
  unfold pySlice pyIdx
  rw [if_neg (by omega), if_neg (by omega)]
  have h1 : (max 0 (min b (xs.length : ℤ))).toNat = min b.toNat xs.length := by omega
  have h2 : (max 0 (min a (xs.length : ℤ))).toNat = min a.toNat xs.length := by omega
  rw [h1, h2]
  have ht : xs.take (min b.toNat xs.length) = xs.take b.toNat := by
    rcases le_total b.toNat xs.length with hble | hble
    · rw [min_eq_left hble]
    · rw [min_eq_right hble, List.take_length, List.take_of_length_le hble]
  rw [ht]
  have hys : (xs.take b.toNat).length ≤ xs.length := by
    simp [List.length_take]
  rcases le_total a.toNat xs.length with hale | hale
  · rw [min_eq_left hale]
  · rw [min_eq_right hale, List.drop_eq_nil_of_le hys,
      List.drop_eq_nil_of_le (le_trans hys hale)]

/-- A contiguous in-bounds slice of a list, written as consecutive lookups
with a default value. -/
theorem drop_take_eq_range_map (t : List ℤ) (a m : ℕ) (h : a + m ≤ t.length) :
    (t.take (a + m)).drop a = (List.range m).map (fun k => t.getD (a + k) 0) := by
  apply List.ext_getElem
  · simp
    omega
  · intro n h1 h2
    have hlen : ((t.take (a + m)).drop a).length = m := by simp; omega
    have hn : n < m := by omega
    have hbound : a + n < t.length := by omega
    rw [List.getElem_drop, List.getElem_take, List.getElem_map, List.getElem_range,
      List.getD_eq_getElem t 0 hbound]

/-- C2: for the checkpoint policy in acc mode (initial best = -np.Inf), at
every epoch end a strict improvement of the monitored metric saves a
best_model snapshot and updates the best value, anything else saves a
last_epoch snapshot and keeps the best value; on the metric sequence
[0.5, 0.6, 0.55, 0.7] epochs 0, 1, 3 are marked best, epoch 2 is marked
last, and the final best value is 0.7. -/
theorem checkpoint_acc_policy :
    init_best .acc = XFloat.negInf ∧
    (∀ (best : XFloat) (current : ℚ), XFloat.lt best (.val current) = true →
      on_epoch_end .acc best current = (.best_model, .val current)) ∧
    (∀ (best : XFloat) (current : ℚ), XFloat.lt best (.val current) = false →
      on_epoch_end .acc best current = (.last_epoch, best)) ∧
    run_epochs .acc [0.5, 0.6, 0.55, 0.7] =
      ([.best_model, .best_model, .last_epoch, .best_model], .val 0.7) := by
  refine ⟨rfl, ?_, ?_, ?_⟩
  · intro best current h
    simp [on_epoch_end, h]
  · intro best current h
    simp [on_epoch_end, h]
  · norm_num [run_epochs, on_epoch_end, XFloat.lt, init_best]

/-- Witness for C2: the very first epoch in acc mode strictly improves on
the initial best -np.Inf, so it is saved as best_model. -/
theorem checkpoint_acc_policy_witness :
    on_epoch_end .acc XFloat.negInf 0 = (.best_model, .val 0) :=
  checkpoint_acc_policy.2.1 XFloat.negInf 0 rfl

/-- C3: the stage loop of launch_training runs a stage exactly while
learning_rate >= learning_rate_min and count < nb_max_epoch, multiplying
the learning rate by 0.1 and incrementing the counter after each stage;
with learning rate 0.1, minimum 0.001, maximum epoch count 10 and counter
starting at 0 it runs exactly 3 stages. -/
theorem launch_training_stage_loop :
    (∀ (lr_min : ℚ) (nb_max fuel : ℕ) (lr : ℚ) (count : ℕ),
      lr_min ≤ lr → count < nb_max →
      launch_training_loop lr_min nb_max (fuel + 1) lr count =
        1 + launch_training_loop lr_min nb_max fuel (lr * 0.1) (count + 1)) ∧
    (∀ (lr_min : ℚ) (nb_max fuel : ℕ) (lr : ℚ) (count : ℕ),
      ¬(lr_min ≤ lr ∧ count < nb_max) →
      launch_training_loop lr_min nb_max (fuel + 1) lr count = 0) ∧
    launch_training_stage_count 0.1 0.001 0 10 = 3 := by
  refine ⟨?_, ?_, ?_⟩
  · intro lr_min nb_max fuel lr count h1 h2
    rw [launch_training_loop, if_pos ⟨h1, h2⟩]
  · intro lr_min nb_max fuel lr count h
    rw [launch_training_loop, if_neg h]
  · norm_num [launch_training_stage_count, launch_training_loop]

/-- Witness for C3: one concrete loop step with the guard satisfied. -/
theorem launch_training_stage_loop_witness :
    launch_training_loop 0 1 1 1 0 = 1 + launch_training_loop 0 1 0 (1 * 0.1) 1 :=
  launch_training_stage_loop.1 0 1 0 1 0 (by decide) (by decide)

/-- C5: for every image and every angle a > 0,
remove_black_borders_from_rotation at angle -a is the horizontal mirror of
remove_black_borders_from_rotation at angle a applied to the horizontally
mirrored image, so an angle and its negation produce mirror-symmetric
crops. -/
theorem rotation_negative_angle_mirror (img : List (List ℤ)) (a : ℤ) (ha : 0 < a) :
    remove_black_borders_from_rotation img (-a) =
      (remove_black_borders_from_rotation (img.map List.reverse) a).map
        (List.map List.reverse) := by
  unfold remove_black_borders_from_rotation
  rw [if_pos (by omega), if_neg (by omega)]

/-- Witness for C5 at a concrete image and angle 1. -/
theorem rotation_negative_angle_mirror_witness :
    remove_black_borders_from_rotation [[0, 1], [1, 0]] (-1) =
      (remove_black_borders_from_rotation ([[0, 1], [1, 0]].map List.reverse) 1).map
        (List.map List.reverse) :=
  rotation_negative_angle_mirror [[0, 1], [1, 0]] 1 (by decide)

/-- C7: convert_labels maps each binary label, in order, to the pair
[label, 1-label]; the two components of every output row sum to 1; and
convert_labels [1,0,1] = [[1,0],[0,1],[1,0]]. -/
theorem convert_labels_one_hot :
    (∀ (labels : List ℤ), convert_labels labels = labels.map (fun l => (l, 1 - l))) ∧
    (∀ (labels : List ℤ), ∀ p ∈ convert_labels labels, p.1 + p.2 = 1) ∧
    convert_labels [1, 0, 1] = [(1, 0), (0, 1), (1, 0)] := by
  refine ⟨fun _ => rfl, ?_, by decide⟩
  intro labels p hp
  simp only [convert_labels, List.mem_map] at hp
  obtain ⟨l, _, rfl⟩ := hp
  ring

/-- Witness for C7: the row produced by label 1 sums to 1. -/
theorem convert_labels_one_hot_witness :
    ((1 : ℤ), (0 : ℤ)).1 + ((1 : ℤ), (0 : ℤ)).2 = 1 :=
  convert_labels_one_hot.2.1 [1] (1, 0) (by decide)

/-- C9: rotate is defined only for 2D images and 3D images with exactly
one channel; for a 3D image whose channel count is not 1 the intermediate
PIL image is never assigned and the call raises (none), while 2D images
and single-channel 3D images succeed. -/
theorem rotate_requires_single_channel :
    (∀ (pil : (ℕ → ℕ → ℤ) → ℤ → ℕ → ℕ → ℤ) (rows cols ch : ℕ)
      (data : ℕ → ℕ → ℕ → ℤ) (angle : ℤ), ch ≠ 1 →
      rotate pil (.d3 rows cols ch data) angle = none) ∧
    (∀ (pil : (ℕ → ℕ → ℤ) → ℤ → ℕ → ℕ → ℤ) (rows cols : ℕ)
      (data : ℕ → ℕ → ℕ → ℤ) (angle : ℤ),
      (rotate pil (NpImage.d3 rows cols 1 data) angle).isSome = true) ∧
    (∀ (pil : (ℕ → ℕ → ℤ) → ℤ → ℕ → ℕ → ℤ) (rows cols : ℕ)
      (data : ℕ → ℕ → ℤ) (angle : ℤ),
      (rotate pil (NpImage.d2 rows cols data) angle).isSome = true) := by
  refine ⟨?_, ?_, ?_⟩
  · intro pil rows cols ch data angle h
    simp [rotate, h]
  · intro pil rows cols data angle
    simp [rotate]
  · intro pil rows cols data angle
    simp [rotate]

/-- Witness for C9: a 3-channel RGB image is rejected. -/
theorem rotate_requires_single_channel_witness :
    rotate (fun d _ => d) (.d3 2 2 3 (fun _ _ _ => 0)) 5 = none :=
  rotate_requires_single_channel.1 (fun d _ => d) 2 2 3 (fun _ _ _ => 0) 5 (by decide)

/-- C10: for a nonnegative angle, remove_black_borders_from_rotation needs
a nonzero pixel in the first row and one in the first column; if the first
row or the first column is entirely zero the cumulative-sum search indexes
an empty argwhere result and the call raises (none). -/
theorem rotation_border_search_requires_nonzero (first_row : List ℤ)
    (rest : List (List ℤ)) (angle : ℤ) (hangle : 0 ≤ angle)
    (hzero : (∀ x ∈ first_row, x = 0) ∨
      (∀ row ∈ first_row :: rest, row.headD 0 = 0)) :
    remove_black_borders_from_rotation (first_row :: rest) angle = none := by
  unfold remove_black_borders_from_rotation
  rw [if_neg (by omega)]
  unfold remove_black_borders_core
  rcases hzero with hrow | hcol
  · have hx : firstNonzeroIdx first_row.reverse = none :=
      firstNonzeroIdx_allzero _ (fun x hx => hrow x (List.mem_reverse.mp hx))
    simp only [hx]
  · have hy : firstNonzeroIdx ((first_row :: rest).map (fun r => r.headD 0)) = none := by
      refine firstNonzeroIdx_allzero _ ?_
      intro x hx
      obtain ⟨row, hrow, rfl⟩ := List.mem_map.mp hx
      exact hcol row hrow
    cases hx : firstNonzeroIdx first_row.reverse with
    | none => simp only [hx]
    | some cropx => simp only [hx, hy]

/-- Witness for C10: a fully black image raises at angle 0. -/
theorem rotation_border_search_requires_nonzero_witness :
    remove_black_borders_from_rotation [[0, 0], [0, 0]] 0 = none :=
  rotation_border_search_requires_nonzero [0, 0] [[0, 0]] 0 (by decide)
    (Or.inl (by decide))

/-- C4: whenever the crop amounts are computed (nonnegative angle, both
searches succeed: cropy from the first column, cropx from the reversed
first row) and cropy exceeds 40 percent of the row count or cropx exceeds
40 percent of the column count, remove_black_borders_from_rotation returns
the input image unchanged. -/
theorem rotation_border_guard (first_row : List ℤ) (rest : List (List ℤ))
    (angle : ℤ) (cropx cropy : ℕ)
    (hangle : 0 ≤ angle)
    (hcx : firstNonzeroIdx first_row.reverse = some cropx)
    (hcy : firstNonzeroIdx ((first_row :: rest).map (fun r => r.headD 0)) = some cropy)
    (hguard : (cropy : ℚ) > 0.4 * (first_row :: rest).length ∨
      (cropx : ℚ) > 0.4 * first_row.length) :
    remove_black_borders_from_rotation (first_row :: rest) angle =
      some (first_row :: rest) := by
  unfold remove_black_borders_from_rotation
  rw [if_neg (by omega)]
  unfold remove_black_borders_core
  simp only [hcx, hcy]
  rw [if_pos hguard]

/-- Witness for C4: concrete image whose first-column crop is 2 of 3 rows,
beyond the 40 percent guard, returned unchanged. -/
theorem rotation_border_guard_witness :
    remove_black_borders_from_rotation [[0, 0, 1], [0, 0, 0], [1, 0, 0]] 0 =
      some [[0, 0, 1], [0, 0, 0], [1, 0, 0]] :=
  rotation_border_guard [0, 0, 1] [[0, 0, 0], [1, 0, 0]] 0 0 2 (by decide)
    (by decide) (by decide) (Or.inl (by norm_num))

/-- C6: crop computes all four pixel offsets, the left and right ones
included, as percentages of the row count: the result is the row range
[u*rows/100, rows - d*rows/100) and the column range
[l*rows/100, cols - r*rows/100), where every offset divides by 100 the
rate times the ROW count. Stated for rectangular images whose crop
amounts stay within the dimensions (the regime of the call site, where
rates are drawn below max_crop_rate; outside it Python's negative-index
slicing takes over). -/
theorem crop_uses_rows_for_all_offsets (img : List (List ℤ)) (u d l r : ℕ)
    (hrect : ∀ row ∈ img, row.length = (img.headD []).length)
    (hd : d * img.length / 100 ≤ img.length)
    (hr : r * img.length / 100 ≤ (img.headD []).length) :
    crop img (u, d, l, r) =
      ((img.take (img.length - d * img.length / 100)).drop
        (u * img.length / 100)).map
        (fun row => (row.take ((img.headD []).length - r * img.length / 100)).drop
          (l * img.length / 100)) := by
  simp only [crop]
  rw [pySlice_nonneg _ _ (Int.natCast_nonneg _) (by omega)]
  have h1 : ((img.length : ℤ) - ↑(d * img.length / 100)).toNat =
      img.length - d * img.length / 100 := by omega
  have h2 : ((u * img.length / 100 : ℕ) : ℤ).toNat = u * img.length / 100 := by omega
  rw [h1, h2]
  refine List.map_congr_left ?_
  intro row hrow
  have hlen : row.length = (img.headD []).length :=
    hrect row (List.mem_of_mem_take (List.mem_of_mem_drop hrow))
  rw [pySlice_nonneg _ _ (Int.natCast_nonneg _) (by omega)]
  have h3 : (((img.headD []).length : ℤ) - ↑(r * img.length / 100)).toNat =
      (img.headD []).length - r * img.length / 100 := by omega
  have h4 : ((l * img.length / 100 : ℕ) : ℤ).toNat = l * img.length / 100 := by omega
  rw [h3, h4]

/-- Witness for C6: a 2x2 image cropped 50 percent from above and from the
left loses its first row and first column. -/
theorem crop_uses_rows_for_all_offsets_witness :
    crop [[1, 2], [3, 4]] (50, 0, 50, 0) = [[(4 : ℤ)]] :=
  (crop_uses_rows_for_all_offsets [[1, 2], [3, 4]] 50 0 50 0 (by decide) (by decide)
    (by decide)).trans (by decide)

/-- C8: load_dataset_in_memory_and_resize raises its configuration
exception for every data_access value other than in-memory and fuel,
before loading anything (empty load trace); for the two valid values the
mode check does not raise. -/
theorem data_access_mode_check :
    (∀ (da : String) (lm lf : Unit → List ℤ × List ℤ) (ts fs : ℕ × ℕ × ℕ)
      (rp : ℤ → ℤ), da ≠ "in-memory" → da ≠ "fuel" →
      load_dataset_in_memory_and_resize da lm lf ts fs rp =
        (.error ("Data access not available. Must be fuel or in-memory. Here : "
          ++ da ++ "."), [])) ∧
    (∀ (lm lf : Unit → List ℤ × List ℤ) (ts fs : ℕ × ℕ × ℕ) (rp : ℤ → ℤ),
      (load_dataset_in_memory_and_resize "in-memory" lm lf ts fs rp).1.isOk = true ∧
      (load_dataset_in_memory_and_resize "fuel" lm lf ts fs rp).1.isOk = true) := by
  constructor
  · intro da lm lf ts fs rp h1 h2
    simp only [load_dataset_in_memory_and_resize, if_neg h1, if_neg h2]
  · intro lm lf ts fs rp
    constructor
    · simp only [load_dataset_in_memory_and_resize]
      rw [if_pos trivial]
      by_cases hts : ts ≠ fs
      · rw [if_pos hts]
        rfl
      · rw [if_neg hts]
        rfl
    · simp only [load_dataset_in_memory_and_resize]
      rw [if_neg (show ¬ ("fuel" : String) = "in-memory" by decide), if_pos trivial]
      by_cases hts : ts ≠ fs
      · rw [if_pos hts]
        rfl
      · rw [if_neg hts]
        rfl

/-- Witness for C8: an unknown mode string fails fast with an empty
trace. -/
theorem data_access_mode_check_witness :
    load_dataset_in_memory_and_resize "flux"
      (fun _ => (([] : List ℤ), ([] : List ℤ)))
      (fun _ => (([] : List ℤ), ([] : List ℤ))) (1, 1, 1) (1, 1, 1) id =
      (.error ("Data access not available. Must be fuel or in-memory. Here : "
        ++ "flux" ++ "."), []) :=
  data_access_mode_check.1 "flux" (fun _ => (([] : List ℤ), ([] : List ℤ)))
    (fun _ => (([] : List ℤ), ([] : List ℤ))) (1, 1, 1) (1, 1, 1) id
    (by decide) (by decide)

/-- C1 counterexample: with 4 samples and batch size 2 a single pass
yields 1 batch, not floor(4/2) = 2: the [0:-1] slice on the range drops
the last FULL batch as well, so the claimed batch count is wrong. -/
theorem generator_single_pass_batch_count_cex :
    ¬ ((generator_from_file_pass [1, 2, 3, 4] [1, 2, 3, 4] 2 id).length =
      ([1, 2, 3, 4] : List ℤ).length / 2) := by decide

/-- C1 amended: each single pass yields exactly floor(N/B) - 1 batches
(natural subtraction: zero when N < 2B), one fewer than the number of full
slices, because the loop iterates range(N//B)[0:-1]; the i-th yielded
batch is the preprocessed sample slice [i*B, (i+1)*B) with the matching
target slice. -/
theorem generator_single_pass_batches (t g : List ℤ) (B : ℕ) (pre : ℤ → ℤ) :
    (generator_from_file_pass t g B pre).length = t.length / B - 1 ∧
    ∀ i, i < t.length / B - 1 →
      (generator_from_file_pass t g B pre).getD i ([], []) =
        (((t.take ((i + 1) * B)).drop (i * B)).map pre,
         (g.take ((i + 1) * B)).drop (i * B)) := by
  constructor
  · simp [generator_from_file_pass]
  · intro i hi
    have hslice : i * B + B ≤ t.length := by
      have h1 : i + 1 ≤ t.length / B - 1 := hi
      calc i * B + B = (i + 1) * B := by ring
        _ ≤ (t.length / B - 1) * B := Nat.mul_le_mul_right B h1
        _ = (t.length / B) * B - B := by rw [Nat.sub_mul, one_mul]
        _ ≤ t.length := le_trans (Nat.sub_le _ _) (Nat.div_mul_le_self _ _)
    have hlen : (generator_from_file_pass t g B pre).length = t.length / B - 1 := by
      simp [generator_from_file_pass]
    rw [List.getD_eq_getElem _ _ (by rw [hlen]; exact hi)]
    simp only [generator_from_file_pass, List.getElem_map, List.getElem_dropLast,
      List.getElem_range]
    have hmul : (i + 1) * B = i * B + B := by ring
    have hfst : (List.range B).map (fun k => pre (t.getD (i * B + k) 0)) =
        ((t.take ((i + 1) * B)).drop (i * B)).map pre := by
      rw [hmul, drop_take_eq_range_map t (i * B) B hslice, List.map_map]
      rfl
    have hsnd : pySlice ((i : ℤ) * B) (((i : ℤ) + 1) * B) g =
        (g.take ((i + 1) * B)).drop (i * B) := by
      have hc1 : ((i : ℤ) * B) = ((i * B : ℕ) : ℤ) := by push_cast; ring
      have hc2 : (((i : ℤ) + 1) * B) = (((i + 1) * B : ℕ) : ℤ) := by push_cast; ring
      rw [hc1, hc2, pySlice_nonneg _ _ (Int.natCast_nonneg _) (Int.natCast_nonneg _)]
      simp only [Int.toNat_natCast]
    rw [hfst, hsnd]

/-- Witness for C1 amended: the first batch of a 6-sample pass with batch
size 2 is the slice [0, 2) of samples and targets. -/
theorem generator_single_pass_batches_witness :
    (generator_from_file_pass [1, 2, 3, 4, 5, 6] [10, 20, 30, 40, 50, 60] 2
        id).getD 0 ([], []) =
      (((([1, 2, 3, 4, 5, 6] : List ℤ).take ((0 + 1) * 2)).drop (0 * 2)).map id,
       (([10, 20, 30, 40, 50, 60] : List ℤ).take ((0 + 1) * 2)).drop (0 * 2)) :=
  (generator_single_pass_batches [1, 2, 3, 4, 5, 6] [10, 20, 30, 40, 50, 60] 2
    id).2 0 (by decide)

/-- C6 counterexample: on a 10x1 image with crop_rates (0, 150, 0, 0) the
claimed row range [0*10/100, 10 - 150*10/100) = [0, -5) is empty, but the
code returns the first five rows: the Python slice endpoint 10-15 = -5 is
negative and wraps around to index 5, so the claimed sub-image formula is
wrong once a computed crop amount exceeds the dimension. -/
theorem crop_range_claim_cex :
    crop [[1], [1], [1], [1], [1], [1], [1], [1], [1], [1]] (0, 150, 0, 0) =
      [[1], [1], [1], [1], [1]] ∧
    crop [[1], [1], [1], [1], [1], [1], [1], [1], [1], [1]] (0, 150, 0, 0) ≠ [] := by
  constructor
  · decide
  · decide
